import Mathlib

/-!
Verification of the `flag` command-line argument parser (flags.hpp).

Strings (`std::string_view`) are modelled as `List Char`; out-of-range
character reads (which in the C++ source can only touch the terminating
NUL of an argv-backed view) are modelled with `List.getD` and the NUL
character as default.  The lookup table `std::unordered_map<string_view,
Flag*>` is modelled as an association list mapping keys to the index of
the flag inside the flag store `m_flags`; an index plays the role of a
stable `Flag*`, which is sound because the C++ store is a `std::list`
chosen precisely so that pointers are never invalidated.  `double`
values are modelled exactly (a rational, or an infinity/NaN marker);
no claim depends on floating-point rounding or on out-of-range
exponents, so `std::from_chars`' result_out_of_range outcome is not
modelled.
-/

set_option maxHeartbeats 1000000

namespace flag

/-- Character strings of the C++ source (`std::string_view`). -/
abbrev Str := List Char

/-- `enum Type : uint8_t { String, Number, Bool }` (the C++ name `Type` is a
Lean keyword, hence `Ty`). -/
inductive Ty where
  | String
  | Number
  | Bool
deriving DecidableEq, Repr

/-- Structural (fuel-consuming) Euclidean algorithm; the kernel can
evaluate it, unlike `Nat.gcd`. -/
def sgcd : Nat → Nat → Nat → Nat
  | 0, _, b => b
  | _ + 1, 0, b => b
  | fuel + 1, a + 1, b => sgcd fuel (b % (a + 1)) (a + 1)

/-- Greatest common divisor via `sgcd` (the fuel `a + b + 1` always
suffices, as each Euclid step strictly shrinks the pair). -/
def gcd_n (a b : Nat) : Nat := sgcd (a + b + 1) a b

/-- An exact rational in lowest terms: numerator and positive denominator.
All values are built with `mk_q`, so representation equality coincides
with value equality. -/
structure Frac where
  num : Int
  den : Nat
deriving DecidableEq, Repr

/-- The fraction `m / d` reduced to lowest terms (`d` is expected to be
positive; every use below passes a power of ten). -/
def mk_q (m : Int) (d : Nat) : Frac :=
  let g := gcd_n m.natAbs d
  if g = 0 then ⟨0, 1⟩ else ⟨Int.tdiv m (Int.ofNat g), d / g⟩

/-- An exact model of a C++ `double` value as produced by `std::from_chars`
on inputs within range: an exact rational, or an infinity, or a NaN
(the sign of a NaN is dropped; it is unobservable in the program). -/
inductive Dbl where
  | num (q : Frac)
  | inf (neg : Bool)
  | nan
deriving DecidableEq, Repr

/-- `using FlagData = std::variant<std::string_view, double, bool>;`.
The default-constructed variant holds the first alternative, an empty
string view. -/
inductive FlagData where
  | str (s : Str)
  | num (d : Dbl)
  | bool (b : Bool)
deriving DecidableEq, Repr

/-- `struct Flag`.  The callback pointer `fn` is omitted: it is never read
by `set`, `get`, `parse`, `is_flag`, `parse_flag` or `set_value`, the
functions the claims are about (it is only read by `call`). -/
structure Flag where
  name : Str
  description : Str
  data : FlagData
  type : Ty
  aliases : List Str
  triggered : Bool
deriving DecidableEq, Repr

/-- Default-initialised `Flag` (all fields value-initialised as in C++). -/
def default_flag : Flag := ⟨[], [], FlagData.str [], Ty.String, [], false⟩

/-- `struct Result`.  Default construction gives `ok = true` and empty
views for `flag_id` and `error`. -/
structure Result where
  ok : Bool
  flag_id : Str
  error : Str
deriving DecidableEq, Repr

/-- `Result{}` — the success result. -/
def ok_result : Result := ⟨true, [], []⟩

/-- `struct Options` with fields `flag_prefix`, `separator`, `strict_flags`. -/
structure Options where
  flag_prefix : Str
  separator : Str
  strict_flags : Bool
deriving DecidableEq, Repr

/-- The lookup table `FlagTable`: keys (names or aliases) to the index of
the flag in the flag store (the model of `Flag*`). -/
abbrev FlagTable := List (Str × Nat)

/-- `class Parser` member state.  `m_args` is passed to `parse` as an
argument instead of being stored; `m_options` is immutable after
construction, exactly as in the source. -/
structure Parser where
  m_flags : List Flag
  m_table : FlagTable
  m_options : Options
  m_flagless : List Str
deriving DecidableEq, Repr

/-- A freshly constructed parser: no flags, empty table, no flagless args. -/
def parser_of (o : Options) : Parser := ⟨[], [], o, []⟩

/-- The configured prefix string `m_options.flag_prefix`. -/
def Parser.prefix_chars : Parser → Str
  | ⟨_, _, ⟨pfx, _, _⟩, _⟩ => pfx

/-- `m_options.flag_prefix.size()`. -/
def Parser.prefix_len (p : Parser) : Nat := ( Parser.prefix_chars p).length

/-- The configured separator string `m_options.separator`. -/
def Parser.sep_chars : Parser → Str
  | ⟨_, _, ⟨_, sep, _⟩, _⟩ => sep

/-- `m_options.strict_flags`. -/
def Parser.strict : Parser → Bool
  | ⟨_, _, ⟨_, _, s⟩, _⟩ => s

/-- `unordered_map::emplace`: insert the key/value pair only when the key
is not yet present (silent no-op on collision). -/
def emplace (t : FlagTable) (k : Str) (v : Nat) : FlagTable :=
  match t.lookup k with
  | some _ => t
  | none => t ++ [(k, v)]

/-- `Parser::set`: append the flag to the store, then register its name and
every alias in the table, all pointing at the new flag. -/
def Parser.set : Parser → Flag → Parser
  | ⟨flags, table, opts, flagless⟩, f =>
    let idx := flags.length
    let t1 := emplace table f.name idx
    let t2 := f.aliases.foldl (fun t a => emplace t a idx) t1
    ⟨flags ++ [f], t2, opts, flagless⟩

/-- `Parser::get`: exact-text lookup of a name or alias; `none` when the
key is absent from the table. -/
def Parser.get : Parser → Str → Option Nat
  | ⟨_, table, _, _⟩, id => table.lookup id

/-- Registering a sequence of flags left to right (chained `set` calls). -/
def register_all (p : Parser) (regs : List Flag) : Parser :=
  regs.foldl Parser.set p

/-- The keys under which `Parser::set` indexes a flag: its name and all of
its aliases. -/
def keys (f : Flag) : List Str := f.name :: f.aliases

/-- `Parser::is_flag`: false when the token is no longer than the prefix;
otherwise true iff every prefix character matches the corresponding
leading token character. -/
def Parser.is_flag : Parser → Str → Bool
  | ⟨_, _, ⟨pfx, _, _⟩, _⟩, str =>
    if str.length ≤ pfx.length then false
    else (List.range pfx.length).all fun i => str.getD i '\x00' == pfx.getD i '\x00'

/-- The loop of `Parser::parse_flag`, with explicit fuel (the index `i`
strictly increases each step, so `str.length + 1` fuel always suffices).

Faithful to the C++ inner loop `for (j = i; j < sep.size(); j++, i++)`:
when the first separator character is found at index `i`,
  * if `sep.size() <= i` the inner loop body never runs, `found` stays
    true, and `{j, true} = {i, true}` is returned — the position of the
    first separator character itself;
  * otherwise the inner loop compares `str[k]` with `sep[k]` for
    `k ∈ [i, sep.size())` (both indices advance together from `i`), and
    on success returns `{sep.size(), true}`; on failure the outer loop
    resumes from `i = sep.size() + 1`. -/
def pf_loop (sep str : Str) : Nat → Nat → Nat × Bool
  | 0, _ => (str.length, false)
  | fuel + 1, i =>
    if i < str.length then
      if str.getD i '\x00' == sep.getD 0 '\x00' then
        if sep.length ≤ i then (i, true)
        else
          if (List.range (sep.length - i)).all
              (fun k => str.getD (i + k) '\x00' == sep.getD (i + k) '\x00') then
            (sep.length, true)
          else pf_loop sep str fuel (sep.length + 1)
      else pf_loop sep str fuel (i + 1)
    else (str.length, false)

/-- `Parser::parse_flag(str, offset)`: scan from `offset` for the
separator; `(str.size(), false)` when none is found. -/
def Parser.parse_flag (p : Parser) (str : Str) (offset : Nat) : Nat × Bool :=
  pf_loop ( Parser.sep_chars p) str (str.length + 1) offset

/-- `arg.substr(prefix_end, sep_start - prefix_end)` — the candidate flag
id that `parse` extracts from a flag-shaped token. -/
def Parser.candidate (p : Parser) (arg : Str) : Str :=
  (arg.drop ( Parser.prefix_len p)).take
    ((Parser.parse_flag p arg ( Parser.prefix_len p)).1 - Parser.prefix_len p)

/-- `m_flagless.push_back(arg)`. -/
def push_flagless (p : Parser) (arg : Str) : Parser :=
  ⟨p.m_flags, p.m_table, p.m_options, p.m_flagless ++ [arg]⟩

/-- Overwrite the flag stored at index `i` (writing through the `Flag*`). -/
def set_flag_at (p : Parser) (i : Nat) (f : Flag) : Parser :=
  ⟨p.m_flags.set i f, p.m_table, p.m_options, p.m_flagless⟩

/-- The Bool-flag assignment in `parse`: `flag->data = true;
flag->triggered = true;`. -/
def bool_set (f : Flag) : Flag :=
  ⟨f.name, f.description, FlagData.bool true, f.type, f.aliases, true⟩

/-- The String branch of `set_value`: `flag.data = str` then
`flag.triggered = true`. -/
def str_set (f : Flag) (v : Str) : Flag :=
  ⟨f.name, f.description, FlagData.str v, f.type, f.aliases, true⟩

/-- The successful Number branch of `set_value`: `flag.data = value` then
`flag.triggered = true`. -/
def num_set (f : Flag) (d : Dbl) : Flag :=
  ⟨f.name, f.description, FlagData.num d, f.type, f.aliases, true⟩

/-- The Bool case of `set_value`'s switch (no matching label, so only
`flag.triggered = true` runs).  Unreachable from `parse`, which handles
Bool flags before calling `set_value`. -/
def trigger_only (f : Flag) : Flag :=
  ⟨f.name, f.description, f.data, f.type, f.aliases, true⟩

/-- Powers of a natural base (kernel-friendly). -/
def npow (b : Nat) : Nat → Nat
  | 0 => 1
  | n + 1 => b * npow b n

/-- The exact value `m * 10 ^ e` as a reduced fraction. -/
def q_scale (m : Int) (e : Int) : Frac :=
  match e with
  | Int.ofNat k => ⟨m * Int.ofNat (npow 10 k), 1⟩
  | Int.negSucc k => mk_q m (npow 10 (k + 1))

/-- The numeric value of a digit character. -/
def digit_val (c : Char) : ℕ := c.toNat - 48

/-- The natural number denoted by a digit string, most significant first. -/
def nat_of_digits (ds : Str) : ℕ := ds.foldl (fun acc c => 10 * acc + digit_val c) 0

/-- Case-insensitive test that `w` is a prefix of `s`. -/
def ci_starts (s w : Str) : Bool := (s.take w.length).map Char.toLower == w

/-- The exponent-part digits after `e`/`E` in `std::from_chars`' general
format: an optional sign then at least one digit; `none` when malformed
(in which case `from_chars` behaves as if no exponent were present). -/
def exp_digits : Str → Option (Bool × Str)
  | '+' :: ds =>
    let t := ds.takeWhile Char.isDigit
    if t.isEmpty then none else some (false, t)
  | '-' :: ds =>
    let t := ds.takeWhile Char.isDigit
    if t.isEmpty then none else some (true, t)
  | ds =>
    let t := ds.takeWhile Char.isDigit
    if t.isEmpty then none else some (false, t)

/-- The exponent contributed by the remainder `s` of the token after the
mantissa: `0` unless `s` starts with a well-formed exponent part. -/
def exp_val (s : Str) : Int :=
  match s with
  | c :: rest =>
    if c = 'e' ∨ c = 'E' then
      match exp_digits rest with
      | none => 0
      | some (negE, ds) => (if negE then -1 else 1) * (nat_of_digits ds : Int)
    else 0
  | [] => 0

/-- `std::from_chars(first, last, value)` for `double` in its default
`chars_format::general` format, reduced to what the caller `set_value`
observes — the error code and the parsed value.  (`set_value` never
reads `result.ptr`, so the number of characters consumed is not
modelled.)  Accepts an optional minus sign (no plus), then either a
case-insensitive `inf`/`nan` word or decimal digits with an optional
point (at least one digit overall) and an optional well-formed
`e`/`E` exponent; leading whitespace is never skipped.  Returns `none`
exactly when `std::from_chars` reports `errc::invalid_argument`. -/
def from_chars (s : Str) : Option Dbl :=
  let neg : Bool := match s with | '-' :: _ => true | _ => false
  let s1 := if neg then s.drop 1 else s
  if ci_starts s1 ("inf".toList) then some (Dbl.inf neg)
  else if ci_starts s1 ("nan".toList) then some Dbl.nan
  else
    let ip := s1.takeWhile Char.isDigit
    let s2 := s1.drop ip.length
    let fp : Str := match s2 with
      | '.' :: r => r.takeWhile Char.isDigit
      | _ => []
    let s3 : Str := match s2 with
      | '.' :: r => r.drop fp.length
      | _ => s2
    if ip.length + fp.length = 0 then none
    else
      let m : Int := Int.ofNat (nat_of_digits (ip ++ fp))
      some (Dbl.num (q_scale (if neg then -m else m) (exp_val s3 - (fp.length : Int))))

/-- `Parser::set_value(str, flag)`: `some` of the updated flag on success
(the C++ mutates `flag` through the reference and returns `true`),
`none` on coercion failure (the C++ returns `false` without touching
`flag`). -/
def set_value (str : Str) (flag : Flag) : Option Flag :=
  match flag.type with
  | Ty.String => some (str_set flag str)
  | Ty.Number =>
    match from_chars str with
    | none => none
    | some d => some (num_set flag d)
  | Ty.Bool => some (trigger_only flag)

/-- The loop of `Parser::parse`, one iteration per recursive step.  The
pair returned is the C++ return value together with the parser state
(`m_flags` and `m_flagless`) at the moment of return. -/
def parse_loop : Parser → List Str → Result × Parser
  | p, [] => (ok_result, p)
  | p, arg :: rest =>
    if ¬ Parser.is_flag p arg then
      parse_loop (push_flagless p arg) rest
    else
      let si := Parser.parse_flag p arg ( Parser.prefix_len p)
      let id := (arg.drop ( Parser.prefix_len p)).take (si.1 - Parser.prefix_len p)
      match Parser.get p id with
      | none =>
        if Parser.strict p then (⟨false, id, ("invalid flag id used".toList)⟩, p)
        else parse_loop p rest
      | some fi =>
        let fl := p.m_flags.getD fi default_flag
        if fl.type = Ty.Bool then
          parse_loop (set_flag_at p fi (bool_set fl)) rest
        else
          if si.2 ∧ si.1 + 1 < arg.length then
            match set_value (arg.drop (si.1 + 1)) fl with
            | none => (⟨false, id, ("could not set flag value".toList)⟩, p)
            | some f2 => parse_loop (set_flag_at p fi f2) rest
          else
            match rest with
            | [] => (⟨false, id, ("could not set flag value".toList)⟩, p)
            | next :: rest2 =>
              match set_value next fl with
              | none => (⟨false, id, ("could not set flag value".toList)⟩, p)
              | some f2 => parse_loop (set_flag_at p fi f2) rest2

/-- `Parser::parse` (the `m_flagless.reserve` call has no observable
effect and is not modelled). -/
def Parser.parse (p : Parser) (args : List Str) : Result × Parser :=
  parse_loop p args

/-- The error message `"invalid flag id used"`. -/
def err_invalid_flag : Str := "invalid flag id used".toList

/-- The error message `"could not set flag value"`. -/
def err_could_not_set : Str := "could not set flag value".toList

/-- Options as in the repository README: prefix `--`, separator `=`,
strict mode on. -/
def opts_eq : Options := ⟨"--".toList, "=".toList, true⟩

/-- The same options with strict mode off. -/
def opts_ns : Options := ⟨"--".toList, "=".toList, false⟩

/-- Options with the two-character separator `::` (strict). -/
def opts_cc : Options := ⟨"--".toList, "::".toList, true⟩

/-- A String-kind flag named `name` (empty string default). -/
def name_flag : Flag :=
  ⟨"name".toList, "a string flag".toList, FlagData.str [], Ty.String, [], false⟩

/-- A Number-kind flag named `num` with alias `n` and default `10`. -/
def num_flag : Flag :=
  ⟨"num".toList, "a number flag".toList, FlagData.num (Dbl.num ⟨10, 1⟩), Ty.Number,
    ["n".toList], false⟩

/-- A Bool-kind flag named `verbose` defaulting to `false`. -/
def verbose_flag : Flag :=
  ⟨"verbose".toList, "a bool flag".toList, FlagData.bool false, Ty.Bool, [], false⟩

/-- A parser with the three sample flags registered, strict, `--`/`=`. -/
def psample : Parser :=
  register_all (parser_of opts_eq) [name_flag, num_flag, verbose_flag]

/-- The sample flags under non-strict options. -/
def psample_ns : Parser :=
  register_all (parser_of opts_ns) [name_flag, num_flag, verbose_flag]

/-- The `num` flag alone, under the two-character separator `::`. -/
def pcc : Parser := register_all (parser_of opts_cc) [num_flag]

/-- Where the first occurrence of key `k` among the flags `regs` would be
registered: the index (counted from `base`) of the first flag one of
whose keys is `k`. -/
def first_key_idx (regs : List Flag) (k : Str) (base : Nat) : Option Nat :=
  match regs with
  | [] => none
  | g :: gs => if k ∈ keys g then some base else first_key_idx gs k (base + 1)

theorem lookup_append (t₁ t₂ : FlagTable) (k : Str) :
    List.lookup k (t₁ ++ t₂) =
      match List.lookup k t₁ with
      | some w => some w
      | none => List.lookup k t₂ := by
  induction t₁ with
  | nil => simp [List.lookup]
  | cons a t ih =>
    obtain ⟨a1, a2⟩ := a
    by_cases h : k = a1
    · subst h
      simp [List.lookup]
    · simp [List.lookup, beq_false_of_ne h, ih]

theorem lookup_emplace (t : FlagTable) (a : Str) (v : Nat) (k : Str) :
    List.lookup k (emplace t a v) =
      match List.lookup k t with
      | some w => some w
      | none => if k = a then some v else none := by
  unfold emplace
  cases ha : List.lookup a t with
  | some w =>
    by_cases h : k = a
    · subst h
      simp [ha]
    · cases hk : List.lookup k t <;> simp [hk, h]
  | none =>
    rw [lookup_append]
    by_cases h : k = a
    · subst h
      simp [ha, List.lookup]
    · cases hk : List.lookup k t <;> simp [hk, h, List.lookup, beq_false_of_ne h]

theorem lookup_fold_emplace (v : Nat) (ks : List Str) (t : FlagTable) (k : Str) :
    List.lookup k (ks.foldl (fun acc a => emplace acc a v) t) =
      match List.lookup k t with
      | some w => some w
      | none => if k ∈ ks then some v else none := by
  induction ks generalizing t with
  | nil => cases hk : List.lookup k t <;> simp [hk]
  | cons a ks ih =>
    rw [List.foldl_cons, ih, lookup_emplace]
    by_cases h : k = a
    · subst h
      cases hk : List.lookup k t <;> simp [hk]
    · cases hk : List.lookup k t <;> simp [hk, h]

theorem get_set (p : Parser) (g : Flag) (k : Str) :
    Parser.get (Parser.set p g) k =
      match Parser.get p k with
      | some w => some w
      | none => if k ∈ keys g then some p.m_flags.length else none := by
  obtain ⟨fs, tb, opts, fl⟩ := p
  show List.lookup k ((g.aliases.foldl (fun t a => emplace t a fs.length)
      (emplace tb g.name fs.length))) = _
  rw [show (g.aliases.foldl (fun t a => emplace t a fs.length)
        (emplace tb g.name fs.length)) =
      ((g.name :: g.aliases).foldl (fun t a => emplace t a fs.length) tb) from rfl]
  rw [lookup_fold_emplace]
  rfl

theorem set_flags_length (p : Parser) (g : Flag) :
    (Parser.set p g).m_flags.length = p.m_flags.length + 1 := by
  obtain ⟨fs, tb, opts, fl⟩ := p
  simp [Parser.set]

theorem get_register_all (regs : List Flag) (p : Parser) (k : Str) :
    Parser.get (register_all p regs) k =
      match Parser.get p k with
      | some w => some w
      | none => first_key_idx regs k p.m_flags.length := by
  induction regs generalizing p with
  | nil =>
    cases hk : Parser.get p k <;> simp [register_all, first_key_idx, hk]
  | cons g gs ih =>
    show Parser.get (register_all (Parser.set p g) gs) k = _
    rw [ih, get_set, set_flags_length]
    cases hk : Parser.get p k with
    | some w => simp [first_key_idx]
    | none =>
      by_cases hm : k ∈ keys g <;> simp [first_key_idx, hm]

theorem first_key_idx_of_mem (regs : List Flag) (k : Str) (i : Nat) (base : Nat)
    (hi : i < regs.length)
    (hmem : k ∈ keys (regs.getD i default_flag))
    (hnot : ∀ j, j < i → k ∉ keys (regs.getD j default_flag)) :
    first_key_idx regs k base = some (base + i) := by
  induction regs generalizing i base with
  | nil => simp at hi
  | cons g gs ih =>
    cases i with
    | zero =>
      simp only [List.getD_cons_zero] at hmem
      simp [first_key_idx, hmem]
    | succ i' =>
      have h0 : k ∉ keys g := by
        have := hnot 0 (Nat.succ_pos i')
        simpa using this
      simp only [List.getD_cons_succ] at hmem
      have hrec := ih i' (base + 1) (by simpa using hi) hmem
        (fun j hj => by simpa using hnot (j + 1) (Nat.succ_lt_succ hj))
      rw [first_key_idx, if_neg h0, hrec]
      congr 1
      omega

theorem first_key_idx_none (regs : List Flag) (k : Str) (base : Nat)
    (h : ∀ g ∈ regs, k ∉ keys g) :
    first_key_idx regs k base = none := by
  induction regs generalizing base with
  | nil => rfl
  | cons g gs ih =>
    rw [first_key_idx, if_neg (h g (List.mem_cons_self g gs))]
    exact ih (base + 1) (fun g hg => h g (List.mem_cons_of_mem _ hg))

/-- C9: for every registered flag whose name and aliases do not collide
with any other flag's keys, looking the flag up by its name and by any
of its declared aliases yields the same flag identity (the same index
into the flag store, i.e. the same underlying `Flag` object), and a key
registered by no flag resolves to nothing. -/
theorem C9_name_alias_same_identity (o : Options) (regs : List Flag) (i : Nat)
    (hi : i < regs.length)
    (hdisj : ∀ j, j < regs.length → j ≠ i →
      ∀ k, k ∈ keys (regs.getD j default_flag) → k ∉ keys (regs.getD i default_flag)) :
    (∀ k, k ∈ keys (regs.getD i default_flag) →
      Parser.get (register_all (parser_of o) regs) k = some i) ∧
    (∀ k, (∀ j, j < regs.length → k ∉ keys (regs.getD j default_flag)) →
      Parser.get (register_all (parser_of o) regs) k = none) := by
  constructor
  · intro k hk
    rw [get_register_all]
    show first_key_idx regs k 0 = some i
    have := first_key_idx_of_mem regs k i 0 hi hk (fun j hj hmem => by
      exact hdisj j (Nat.lt_trans hj hi) (Nat.ne_of_lt hj) k hmem hk)
    simpa using this
  · intro k hk
    rw [get_register_all]
    show first_key_idx regs k 0 = none
    refine first_key_idx_none regs k 0 (fun g hg => ?_)
    obtain ⟨j, hj, rfl⟩ := List.getElem_of_mem hg
    have := hk j hj
    rwa [List.getD_eq_getElem regs default_flag hj] at this

/-- Witness for C9 at a concrete registry: with `name` and `num` (alias
`n`) registered, `num` and its alias `n` resolve to the same identity,
and an unused key resolves to nothing. -/
theorem C9_witness :
    (1 < [name_flag, num_flag].length) ∧
    Parser.get (register_all (parser_of opts_eq) [name_flag, num_flag])
      ("num".toList) = some 1 ∧
    Parser.get (register_all (parser_of opts_eq) [name_flag, num_flag])
      ("n".toList) = some 1 ∧
    Parser.get (register_all (parser_of opts_eq) [name_flag, num_flag])
      ("bogus".toList) = none := by
  have h := C9_name_alias_same_identity opts_eq [name_flag, num_flag] 1
    (by decide) (by decide)
  exact ⟨by decide, h.1 ("num".toList) (by decide), h.1 ("n".toList) (by decide),
    h.2 ("bogus".toList) (by decide)⟩

/-- C4: in strict mode, a flag-shaped token whose candidate name does not
resolve makes `parse` terminate at once with
`{ok:false, flag_id: candidate, error:"invalid flag id used"}`; the
remaining tokens are not processed (the result does not depend on
`rest`), and the parser state — every positional and every flag
value/triggered state accumulated so far — is returned exactly as it
was (no rollback). -/
theorem C4_strict_unknown_terminates (p : Parser) (arg : Str) (rest : List Str)
    (hstrict : Parser.strict p = true)
    (hflag : Parser.is_flag p arg = true)
    (hget : Parser.get p (Parser.candidate p arg) = none) :
    Parser.parse p (arg :: rest) =
      (⟨false, Parser.candidate p arg, err_invalid_flag⟩, p) := by
  simp only [Parser.candidate, Parser.parse] at hget ⊢
  rw [parse_loop, if_neg (by simp [hflag])]
  simp only [hget, hstrict, err_invalid_flag, if_true]

/-- C5: with strict mode off, a flag-shaped token whose candidate name
does not resolve is skipped silently: the parser state is unchanged (in
particular the token is not added to the positional list and no flag is
touched), parsing continues with the next token, and a run whose
remaining tokens all parse still returns `{ok:true}`. -/
theorem C5_nonstrict_skips_unknown (p : Parser) (arg : Str) (rest : List Str)
    (hstrict : Parser.strict p = false)
    (hflag : Parser.is_flag p arg = true)
    (hget : Parser.get p (Parser.candidate p arg) = none) :
    Parser.parse p (arg :: rest) = Parser.parse p rest ∧
    ((Parser.parse p rest).1.ok = true → (Parser.parse p (arg :: rest)).1.ok = true) := by
  have h : Parser.parse p (arg :: rest) = Parser.parse p rest := by
    simp only [Parser.candidate, Parser.parse] at hget ⊢
    rw [parse_loop, if_neg (by simp [hflag])]
    simp only [hget, hstrict]
    simp
  exact ⟨h, fun hok => by rw [h]; exact hok⟩

/-- C7: a token resolving to a Bool flag immediately sets the flag's value
to `true` and marks it triggered, consumes no separator value and no
lookahead token, and parsing continues with the very next token; in
particular `["--verbose", "extra"]` puts `extra` in the positional list
instead of consuming it as a value. -/
theorem C7_bool_consumes_nothing (p : Parser) (arg : Str) (fi : Nat)
    (hflag : Parser.is_flag p arg = true)
    (hget : Parser.get p (Parser.candidate p arg) = some fi)
    (hty : (p.m_flags.getD fi default_flag).type = Ty.Bool) :
    (∀ rest, Parser.parse p (arg :: rest) =
      Parser.parse (set_flag_at p fi (bool_set (p.m_flags.getD fi default_flag))) rest) ∧
    ((Parser.parse psample ["--verbose".toList, "extra".toList]).2.m_flagless =
        ["extra".toList] ∧
      ((Parser.parse psample ["--verbose".toList, "extra".toList]).2.m_flags.getD 2
          default_flag) = bool_set verbose_flag ∧
      (Parser.parse psample ["--verbose".toList, "extra".toList]).1 = ok_result) := by
  constructor
  · intro rest
    simp only [Parser.candidate, Parser.parse] at hget ⊢
    rw [parse_loop, if_neg (by simp [hflag])]
    simp only [hget, hty, if_true]
  · exact ⟨by decide, by decide, by decide⟩

/-- C6: a token resolving to a non-Bool flag with no inline value (no
separator followed by at least one character inside the token) takes
the entire next token as value source when one exists — whatever that
token looks like — and the iteration consumes both tokens; with no next
token, `parse` terminates with
`{ok:false, flag_id: candidate, error:"could not set flag value"}`. -/
theorem C6_lookahead_value_or_fail (p : Parser) (arg : Str) (s : Nat) (fnd : Bool)
    (fi : Nat)
    (hflag : Parser.is_flag p arg = true)
    (hsep : Parser.parse_flag p arg ( Parser.prefix_len p) = (s, fnd))
    (hnoinline : ¬(fnd = true ∧ s + 1 < arg.length))
    (hget : Parser.get p (Parser.candidate p arg) = some fi)
    (hty : (p.m_flags.getD fi default_flag).type ≠ Ty.Bool) :
    (∀ next rest,
      Parser.parse p (arg :: next :: rest) =
        match set_value next (p.m_flags.getD fi default_flag) with
        | none => (⟨false, Parser.candidate p arg, err_could_not_set⟩, p)
        | some f2 => Parser.parse (set_flag_at p fi f2) rest) ∧
    (Parser.parse p [arg] = (⟨false, Parser.candidate p arg, err_could_not_set⟩, p)) := by
  constructor
  · intro next rest
    simp only [Parser.candidate, Parser.parse, hsep] at hget ⊢
    rw [parse_loop, if_neg (by simp [hflag])]
    simp only [hsep, hget, if_neg hty, err_could_not_set]
    rw [if_neg hnoinline]
  · simp only [Parser.candidate, Parser.parse, hsep] at hget ⊢
    rw [parse_loop, if_neg (by simp [hflag])]
    simp only [hsep, hget, if_neg hty, err_could_not_set]
    rw [if_neg hnoinline]

/-- C1 (amended): a String-kind flag token with a trailing separator and
nothing after it inside the token is treated exactly like a token with
no separator: `parse` falls back to lookahead — with a next token, the
flag's value becomes that entire next token; with none, `parse` fails
with `{ok:false, flag_id: candidate, error:"could not set flag value"}`.
The inline value is never treated as empty-but-present. -/
theorem C1_trailing_separator_means_lookahead (p : Parser) (arg : Str) (s fi : Nat)
    (hflag : Parser.is_flag p arg = true)
    (hsep : Parser.parse_flag p arg ( Parser.prefix_len p) = (s, true))
    (hend : ¬ s + 1 < arg.length)
    (hget : Parser.get p (Parser.candidate p arg) = some fi)
    (hty : (p.m_flags.getD fi default_flag).type = Ty.String) :
    (Parser.parse p [arg] = (⟨false, Parser.candidate p arg, err_could_not_set⟩, p)) ∧
    (∀ next rest, Parser.parse p (arg :: next :: rest) =
      Parser.parse
        (set_flag_at p fi (str_set (p.m_flags.getD fi default_flag) next)) rest) := by
  have hty' : (p.m_flags.getD fi default_flag).type ≠ Ty.Bool := by rw [hty]; decide
  constructor
  · simp only [Parser.candidate, Parser.parse, hsep] at hget ⊢
    rw [parse_loop, if_neg (by simp [hflag])]
    simp only [hsep, hget, if_neg hty', err_could_not_set]
    rw [if_neg (fun h => hend h.2)]
  · intro next rest
    simp only [Parser.candidate, Parser.parse, hsep] at hget ⊢
    rw [parse_loop, if_neg (by simp [hflag])]
    simp only [hsep, hget, if_neg hty', err_could_not_set]
    rw [if_neg (fun h => hend h.2)]
    simp only [set_value, hty]

/-- C10: when coercion of a value text for a Number-kind flag fails —
whether the value came from an inline separator or from lookahead —
`parse` returns `{ok:false, flag_id, "could not set flag value"}` and
the parser state is returned untouched: the offending flag still holds
exactly the data and triggered state it had before the token was
processed. -/
theorem C10_failed_coercion_leaves_flag_unchanged (p : Parser) (arg : Str) (s : Nat)
    (fnd : Bool) (fi : Nat)
    (hflag : Parser.is_flag p arg = true)
    (hsep : Parser.parse_flag p arg ( Parser.prefix_len p) = (s, fnd))
    (hget : Parser.get p (Parser.candidate p arg) = some fi)
    (hty : (p.m_flags.getD fi default_flag).type = Ty.Number) :
    ((fnd = true ∧ s + 1 < arg.length) →
      from_chars (arg.drop (s + 1)) = none →
      ∀ rest, Parser.parse p (arg :: rest) =
        (⟨false, Parser.candidate p arg, err_could_not_set⟩, p)) ∧
    (¬(fnd = true ∧ s + 1 < arg.length) →
      ∀ next rest, from_chars next = none →
        Parser.parse p (arg :: next :: rest) =
          (⟨false, Parser.candidate p arg, err_could_not_set⟩, p)) := by
  have hty' : (p.m_flags.getD fi default_flag).type ≠ Ty.Bool := by rw [hty]; decide
  constructor
  · intro hinline hfc rest
    simp only [Parser.candidate, Parser.parse, hsep] at hget ⊢
    rw [parse_loop, if_neg (by simp [hflag])]
    simp only [hsep, hget, if_neg hty', err_could_not_set]
    rw [if_pos hinline]
    simp only [set_value, hty, hfc]
  · intro hnoinline next rest hfc
    simp only [Parser.candidate, Parser.parse, hsep] at hget ⊢
    rw [parse_loop, if_neg (by simp [hflag])]
    simp only [hsep, hget, if_neg hty', err_could_not_set]
    rw [if_neg hnoinline]
    simp only [set_value, hty, hfc]

/-- C8 (amended): a token is flag-shaped iff its length exceeds the prefix
length and every prefix character matches the token's corresponding
leading character; every token *examined by the scan* that is not
flag-shaped is appended to the positional list (in original order,
never looked up in the registry) — but a token consumed as the
lookahead value of a preceding non-Bool flag is never examined and does
not reach the positional list. -/
theorem C8_flag_shape_iff_and_positionals (p : Parser) (tok : Str) (rest : List Str) :
    (Parser.is_flag p tok = true ↔
      ( Parser.prefix_chars p).length < tok.length ∧
        ∀ i, i < ( Parser.prefix_chars p).length →
          tok.getD i '\x00' = ( Parser.prefix_chars p).getD i '\x00') ∧
    (Parser.is_flag p tok = false →
      Parser.parse p (tok :: rest) = Parser.parse (push_flagless p tok) rest) := by
  constructor
  · obtain ⟨fs, tb, ⟨px, sp, st⟩, fl⟩ := p
    simp only [Parser.is_flag, Parser.prefix_chars]
    by_cases h : tok.length ≤ px.length
    · rw [if_pos h]
      simp [Nat.not_lt.mpr h]
    · rw [if_neg h]
      simp only [List.all_eq_true, List.mem_range, beq_iff_eq]
      exact ⟨fun ha => ⟨Nat.not_le.mp h, fun i hi => ha i hi⟩,
        fun hb i hi => hb.2 i hi⟩
  · intro h
    simp only [Parser.parse]
    rw [parse_loop, if_pos (by simp [h])]

/-- C2 (amended): Number coercion checks only `from_chars`' error code,
never whether the whole span was consumed: it succeeds iff the text has
a valid numeric prefix.  `"3.14xyz"` and `"3.14 "` succeed with value
3.14 (trailing garbage/whitespace accepted); `" 3.14"` (leading
whitespace) and `"abc"` (no numeric prefix) fail, making `parse` return
`{ok:false, flag_id: the flag's matched id, error:"could not set flag
value"}`. -/
theorem C2_coercion_checks_error_code_only (f : Flag) (hf : f.type = Ty.Number)
    (v : Str) :
    (set_value v f = none ↔ from_chars v = none) ∧
    (Parser.parse psample ["--num=3.14xyz".toList] =
      (ok_result, set_flag_at psample 1 (num_set num_flag (Dbl.num ⟨157, 50⟩)))) ∧
    (Parser.parse psample ["--num=3.14 ".toList] =
      (ok_result, set_flag_at psample 1 (num_set num_flag (Dbl.num ⟨157, 50⟩)))) ∧
    (Parser.parse psample ["--num= 3.14".toList] =
      (⟨false, "num".toList, err_could_not_set⟩, psample)) ∧
    (Parser.parse psample ["--num".toList, "abc".toList] =
      (⟨false, "num".toList, err_could_not_set⟩, psample)) := by
  refine ⟨?_, by decide, by decide, by decide, by decide⟩
  simp only [set_value, hf]
  cases h : from_chars v <;> simp [h]

/-- C3: the claimed tokenizer contract does not hold; the code has an
indexing slip.  With prefix `--` and the two-character separator `::`,
the token `--num::5` makes `parse_flag` accept the lone first `:` (at
index 5, which is `≥ sep.length`, so the full-match inner loop never
runs) and report the position *of* that character rather than the
position after the full separator.  `parse` therefore takes `:5` as the
inline value (consuming one separator character instead of two), whose
numeric coercion fails — where the claim implies candidate `num`, value
`5`, and the reported position 7.  This theorem evaluates the code at
that failing input. -/
theorem C3_separator_first_char_slip :
    Parser.parse_flag pcc ("--num::5".toList) 2 = (5, true) ∧
    Parser.candidate pcc ("--num::5".toList) = "num".toList ∧
    (("--num::5".toList).drop (5 + 1) = ":5".toList) ∧
    from_chars (":5".toList) = none ∧
    Parser.parse pcc ["--num::5".toList] =
      (⟨false, "num".toList, err_could_not_set⟩, pcc) := by decide

/-- C1 counterexample: for the String flag `name` and input `["--name="]`
the claim demands success with the empty string as value; the code
instead fails with `could not set flag value` and leaves the flag
untriggered. -/
theorem C1_counterexample :
    Parser.parse psample ["--name=".toList] =
      (⟨false, "name".toList, err_could_not_set⟩, psample) ∧
    ((Parser.parse psample ["--name=".toList]).2.m_flags.getD 0 default_flag).triggered
        = false := by decide

/-- C2 counterexample: the claim demands that `"3.14xyz"` fail coercion;
the code succeeds, stores 3.14 and marks the flag triggered. -/
theorem C2_counterexample :
    (Parser.parse psample ["--num=3.14xyz".toList]).1.ok = true ∧
    ((Parser.parse psample ["--num=3.14xyz".toList]).2.m_flags.getD 1
        default_flag).triggered = true ∧
    ((Parser.parse psample ["--num=3.14xyz".toList]).2.m_flags.getD 1
        default_flag).data = FlagData.num (Dbl.num ⟨157, 50⟩) := by decide

/-- C8 counterexample: `"5"` is not flag-shaped, yet after parsing
`["--num", "5"]` the positional list is empty — the token was consumed
as `num`'s lookahead value, so the positional list does *not* hold
every non-flag-shaped token. -/
theorem C8_counterexample :
    Parser.is_flag psample ("5".toList) = false ∧
    (Parser.parse psample ["--num".toList, "5".toList]).1.ok = true ∧
    (Parser.parse psample ["--num".toList, "5".toList]).2.m_flagless = [] := by decide

/-- Witness for C1 at `["--name="]` and `["--name=", "hello"]`. -/
theorem C1_witness :
    Parser.get psample (Parser.candidate psample ("--name=".toList)) = some 0 ∧
    Parser.parse_flag psample ("--name=".toList) ( Parser.prefix_len psample) =
      (6, true) ∧
    Parser.parse psample ["--name=".toList] =
      (⟨false, Parser.candidate psample ("--name=".toList), err_could_not_set⟩,
        psample) ∧
    Parser.parse psample ["--name=".toList, "hello".toList] =
      Parser.parse
        (set_flag_at psample 0
          (str_set (psample.m_flags.getD 0 default_flag) ("hello".toList))) [] :=
  ⟨by decide, by decide,
    (C1_trailing_separator_means_lookahead psample ("--name=".toList) 6 0
      (by decide) (by decide) (by decide) (by decide) (by decide)).1,
    (C1_trailing_separator_means_lookahead psample ("--name=".toList) 6 0
      (by decide) (by decide) (by decide) (by decide) (by decide)).2
      ("hello".toList) []⟩

/-- Witness for C2 at the value text `"abc"` for the Number flag `num`. -/
theorem C2_witness :
    num_flag.type = Ty.Number ∧
    (set_value ("abc".toList) num_flag = none ↔ from_chars ("abc".toList) = none) :=
  ⟨by decide,
    (C2_coercion_checks_error_code_only num_flag (by decide) ("abc".toList)).1⟩

/-- Witness for C4 at `["--bogus", "tail"]` under strict options. -/
theorem C4_witness :
    Parser.strict psample = true ∧
    Parser.is_flag psample ("--bogus".toList) = true ∧
    Parser.get psample (Parser.candidate psample ("--bogus".toList)) = none ∧
    Parser.parse psample ["--bogus".toList, "tail".toList] =
      (⟨false, Parser.candidate psample ("--bogus".toList), err_invalid_flag⟩,
        psample) :=
  ⟨by decide, by decide, by decide,
    C4_strict_unknown_terminates psample ("--bogus".toList) ["tail".toList]
      (by decide) (by decide) (by decide)⟩

/-- Witness for C5 at `["--bogus"]` under non-strict options. -/
theorem C5_witness :
    Parser.strict psample_ns = false ∧
    Parser.is_flag psample_ns ("--bogus".toList) = true ∧
    Parser.get psample_ns (Parser.candidate psample_ns ("--bogus".toList)) = none ∧
    Parser.parse psample_ns ["--bogus".toList] = Parser.parse psample_ns [] :=
  ⟨by decide, by decide, by decide,
    (C5_nonstrict_skips_unknown psample_ns ("--bogus".toList) []
      (by decide) (by decide) (by decide)).1⟩

/-- Witness for C6 at `["--num", "7"]` (lookahead) and `["--num"]`
(missing value). -/
theorem C6_witness :
    Parser.parse_flag psample ("--num".toList) ( Parser.prefix_len psample) =
      (5, false) ∧
    (Parser.parse psample ["--num".toList, "7".toList] =
      match set_value ("7".toList) (psample.m_flags.getD 1 default_flag) with
      | none =>
        (⟨false, Parser.candidate psample ("--num".toList), err_could_not_set⟩,
          psample)
      | some f2 => Parser.parse (set_flag_at psample 1 f2) []) ∧
    (Parser.parse psample ["--num".toList] =
      (⟨false, Parser.candidate psample ("--num".toList), err_could_not_set⟩,
        psample)) :=
  ⟨by decide,
    (C6_lookahead_value_or_fail psample ("--num".toList) 5 false 1
      (by decide) (by decide) (by decide) (by decide) (by decide)).1
      ("7".toList) [],
    (C6_lookahead_value_or_fail psample ("--num".toList) 5 false 1
      (by decide) (by decide) (by decide) (by decide) (by decide)).2⟩

/-- Witness for C7 at `["--verbose", "x"]`. -/
theorem C7_witness :
    (psample.m_flags.getD 2 default_flag).type = Ty.Bool ∧
    Parser.parse psample ["--verbose".toList, "x".toList] =
      Parser.parse
        (set_flag_at psample 2 (bool_set (psample.m_flags.getD 2 default_flag)))
        ["x".toList] :=
  ⟨by decide,
    (C7_bool_consumes_nothing psample ("--verbose".toList) 2
      (by decide) (by decide) (by decide)).1 ["x".toList]⟩

/-- Witness for C8 at the positional token `"pos"`. -/
theorem C8_witness :
    Parser.is_flag psample ("pos".toList) = false ∧
    Parser.parse psample ["pos".toList] =
      Parser.parse (push_flagless psample ("pos".toList)) [] :=
  ⟨by decide,
    (C8_flag_shape_iff_and_positionals psample ("pos".toList) []).2 (by decide)⟩

/-- Witness for C10 at `["--num=abc"]` (inline value whose coercion
fails). -/
theorem C10_witness :
    from_chars ("abc".toList) = none ∧
    (psample.m_flags.getD 1 default_flag).type = Ty.Number ∧
    Parser.parse psample ["--num=abc".toList] =
      (⟨false, Parser.candidate psample ("--num=abc".toList), err_could_not_set⟩,
        psample) :=
  ⟨by decide, by decide,
    (C10_failed_coercion_leaves_flag_unchanged psample ("--num=abc".toList) 5 true 1
      (by decide) (by decide) (by decide) (by decide)).1
      (by decide) (by decide) []⟩

end flag
